import Mathlib

/-!
Verification of the usb-ids build-time compiler (`build.rs`) and the
query layer (`src/lib.rs`).

The build script is a line-oriented state machine over the `usb.ids`
text database.  Each line is first tested against the known section
headers (`ParserState::next_from_header`), and then processed by the
grammar of the current section (`ParserState::process`).  Completed
records are rendered (the `quote::ToTokens` impls) and appended to a
`phf_codegen::Map`, which is built (duplicate keys are fatal) when the
section is finalized.

Strings are modelled as `List Char`; the `nom` combinators on `&str`
operate on characters, which coincides with bytes on the ASCII data the
grammar recognizes.  All numeric ids are `Nat`: every id field is at
most 4 hex digits, so `u8`/`u16` overflow is impossible and no modular
arithmetic is needed.
-/

namespace UsbIds

/-- ASCII hex digit recognizer, mirroring `nom::character::complete::hex_digit1`
(which accepts `0-9`, `a-f`, `A-F`). -/
def isHexDigitChar (c : Char) : Bool :=
  c.isDigit || (decide ('a' ≤ c) && decide (c ≤ 'f')) || (decide ('A' ≤ c) && decide (c ≤ 'F'))

/-- Value of one hex digit, as used by `from_str_radix(_, 16)`. -/
def hexDigitVal (c : Char) : Nat :=
  if c.isDigit then c.toNat - 48
  else if 'a' ≤ c ∧ c ≤ 'f' then c.toNat - 87
  else if 'A' ≤ c ∧ c ≤ 'F' then c.toNat - 55
  else 0

/-- `u16::from_str_radix(s, 16)` / `u8::from_str_radix(s, 16)` on a string of
hex digits (the all-hex precondition is checked by the caller, `idP`). -/
def hexValue (l : List Char) : Nat :=
  l.foldl (fun acc c => 16 * acc + hexDigitVal c) 0

/-- `nom::bytes::complete::tag(t)` (also covers `tab`): strips the literal
`t` from the front of the input. -/
def tagP (t : List Char) (l : List Char) : Option (List Char) :=
  if t.isPrefixOf l then some (l.drop t.length) else none

/-- `parser::id(size, from_str_radix)` from build.rs:
`map_res(map_parser(take(size), all_consuming(hex_digit1)), |s| from_str_radix(s, 16))`.
`take(size)` splits off exactly `size` characters (failing on shorter input),
`all_consuming(hex_digit1)` requires all of them (at least one) to be hex
digits, and the conversion is base 16.  A chunk of `size` hex digits is always
below `16 ^ size ≤ 16 ^ 4`, so the `u8`/`u16` conversion never fails. -/
def idP (size : Nat) (l : List Char) : Option (Nat × List Char) :=
  if l.length < size then none
  else if l.take size ≠ [] ∧ (l.take size).all isHexDigitChar then
    some (hexValue (l.take size), l.drop size)
  else none

/-- `delimited(tag(pre), id(size, _), tag("  "))`: the shared shape of every
record-line parser in `mod parser`.  Returns `(rest, value)` as `IResult` does;
`rest` is the name field. -/
def delimitedId (pre : List Char) (size : Nat) (l : List Char) : Option (List Char × Nat) :=
  match tagP pre l with
  | none => none
  | some r1 =>
    match idP size r1 with
    | none => none
    | some (v, r2) =>
      match tagP [' ', ' '] r2 with
      | none => none
      | some r3 => some (r3, v)

/-- `parser::vendor`: `terminated(id(4, u16), tag("  "))`. -/
def vendorLine (l : List Char) : Option (List Char × Nat) := delimitedId [] 4 l

/-- `parser::device`: `delimited(tab, id(4, u16), tag("  "))`. -/
def deviceLine (l : List Char) : Option (List Char × Nat) := delimitedId ['\t'] 4 l

/-- `parser::interface`: `delimited(tag("\t\t"), id(2, u8), tag("  "))`. -/
def interfaceLine (l : List Char) : Option (List Char × Nat) := delimitedId ['\t', '\t'] 2 l

/-- `parser::class`: `delimited(tag("C "), id(2, u8), tag("  "))`. -/
def classLine (l : List Char) : Option (List Char × Nat) := delimitedId ['C', ' '] 2 l

/-- `parser::sub_class`: `delimited(tab, id(2, u8), tag("  "))`. -/
def subClassLine (l : List Char) : Option (List Char × Nat) := delimitedId ['\t'] 2 l

/-- `parser::protocol`: `delimited(tag("\t\t"), id(2, u8), tag("  "))`. -/
def protocolLine (l : List Char) : Option (List Char × Nat) := delimitedId ['\t', '\t'] 2 l

/-- `parser::audio_terminal_type`: `delimited(tag("AT "), id(4, u16), tag("  "))`. -/
def atLine (l : List Char) : Option (List Char × Nat) := delimitedId ['A', 'T', ' '] 4 l

/-- `parser::hid_type`: `delimited(tag("HID "), id(2, u8), tag("  "))`. -/
def hidLine (l : List Char) : Option (List Char × Nat) := delimitedId ['H', 'I', 'D', ' '] 2 l

/-- `parser::hid_item_type`: `delimited(tag("R "), id(2, u8), tag("  "))`. -/
def rLine (l : List Char) : Option (List Char × Nat) := delimitedId ['R', ' '] 2 l

/-- `parser::bias_type`: `delimited(tag("BIAS "), id(1, u8), tag("  "))`. -/
def biasLine (l : List Char) : Option (List Char × Nat) :=
  delimitedId ['B', 'I', 'A', 'S', ' '] 1 l

/-- `parser::phy_type`: `delimited(tag("PHY "), id(2, u8), tag("  "))`. -/
def phyLine (l : List Char) : Option (List Char × Nat) := delimitedId ['P', 'H', 'Y', ' '] 2 l

/-- `parser::hut_type`: `delimited(tag("HUT "), id(2, u8), tag("  "))`. -/
def hutLine (l : List Char) : Option (List Char × Nat) := delimitedId ['H', 'U', 'T', ' '] 2 l

/-- `parser::hid_usage_name`: `delimited(tab, id(3, u16), tag("  "))`. -/
def usageLine (l : List Char) : Option (List Char × Nat) := delimitedId ['\t'] 3 l

/-- `parser::language`: `delimited(tag("L "), id(4, u16), tag("  "))`. -/
def langLine (l : List Char) : Option (List Char × Nat) := delimitedId ['L', ' '] 4 l

/-- `parser::dialect`: `delimited(tab, id(2, u8), tag("  "))`. -/
def dialectLine (l : List Char) : Option (List Char × Nat) := delimitedId ['\t'] 2 l

/-- `parser::country_code`: `delimited(tag("HCC "), id(2, u8), tag("  "))`. -/
def ccLine (l : List Char) : Option (List Char × Nat) := delimitedId ['H', 'C', 'C', ' '] 2 l

/-- `parser::terminal_type`: `delimited(tag("VT "), id(4, u16), tag("  "))`. -/
def vtLine (l : List Char) : Option (List Char × Nat) := delimitedId ['V', 'T', ' '] 4 l

/-! ## In-progress (codegen) records, mirroring the `Cg*` structs of build.rs -/

/-- `CgType<T>` (leaf: interface, protocol, audio terminal, …). -/
structure CgType where
  id : Nat
  name : String
deriving DecidableEq, Repr

/-- `CgParentType<T, C>` with leaf children (sub-class, HID usage page, language). -/
structure CgParent where
  id : Nat
  name : String
  children : List CgType
deriving DecidableEq, Repr

/-- `CgDevice`. -/
structure CgDevice where
  id : Nat
  name : String
  interfaces : List CgType
deriving DecidableEq, Repr

/-- `CgVendor`. -/
structure CgVendor where
  id : Nat
  name : String
  devices : List CgDevice
deriving DecidableEq, Repr

/-- `CgClass`. -/
structure CgClass where
  id : Nat
  name : String
  sub_classes : List CgParent
deriving DecidableEq, Repr

/-! ## Rendered records: what the `quote::ToTokens` impls emit, as consumed by
the structs of `src/lib.rs` (`Vendor`, `Device`, `Class`, `SubClass`,
`UsbId`, `UsbIdWithChildren`). -/

/-- `UsbId { id, name }`, the rendering of `CgType` (also the shape of
`Interface` and `Protocol` in lib.rs). -/
structure UsbId where
  id : Nat
  name : String
deriving DecidableEq, Repr

/-- `UsbIdWithChildren { id, name, children }`, the rendering of `CgParentType`. -/
structure UsbIdWithChildren where
  id : Nat
  name : String
  children : List UsbId
deriving DecidableEq, Repr

/-- `Device { vendor_id, id, name, interfaces }` as emitted inside a vendor. -/
structure Device where
  vendor_id : Nat
  id : Nat
  name : String
  interfaces : List UsbId
deriving DecidableEq, Repr

/-- `Vendor { id, name, devices }`. -/
structure Vendor where
  id : Nat
  name : String
  devices : List Device
deriving DecidableEq, Repr

/-- `SubClass { class_id, id, name, protocols }` as emitted inside a class. -/
structure SubClass where
  class_id : Nat
  id : Nat
  name : String
  protocols : List UsbId
deriving DecidableEq, Repr

/-- `Class { id, name, sub_classes }`. -/
structure Class where
  id : Nat
  name : String
  sub_classes : List SubClass
deriving DecidableEq, Repr

/-- `impl ToTokens for CgType`: emits `UsbId { id, name }`. -/
def CgType.toTokens (t : CgType) : UsbId := ⟨t.id, t.name⟩

/-- `impl ToTokens for CgParentType`: emits `UsbIdWithChildren`. -/
def CgParent.toTokens (p : CgParent) : UsbIdWithChildren :=
  ⟨p.id, p.name, p.children.map CgType.toTokens⟩

/-- `impl ToTokens for CgVendor`: each device is emitted with
`vendor_id: #vendor_id`, the id of the vendor it is contained in. -/
def CgVendor.toTokens (v : CgVendor) : Vendor :=
  ⟨v.id, v.name,
    v.devices.map (fun d => ⟨v.id, d.id, d.name, d.interfaces.map CgType.toTokens⟩)⟩

/-- `impl ToTokens for CgClass`: each subclass is emitted with
`class_id: #class_id`, the id of the class it is contained in. -/
def CgClass.toTokens (c : CgClass) : Class :=
  ⟨c.id, c.name,
    c.sub_classes.map (fun s => ⟨c.id, s.id, s.name, s.children.map CgType.toTokens⟩)⟩

/-! ## The parser state machine -/

/-- Fatal build errors.  `expectFail msg` models a `panic!` coming from an
`Option::expect`/`Result::expect` call in build.rs with that message;
`duplicateKey k` models the `phf_codegen::Map::build` panic on a duplicate
key. -/
inductive BuildErr where
  | expectFail (msg : String)
  | duplicateKey (k : Nat)
deriving DecidableEq, Repr

/-- `enum ParserState` from build.rs.  Each constructor holds the section's
`phf_codegen::Map` (modelled as the insertion-ordered list of key/rendered-value
entries), the currently open record, and — for `Vendors`/`Classes` — the
last-seen depth-1 id used for re-parenting depth-2 lines. -/
inductive ParserState where
  | vendors (m : List (Nat × Vendor)) (curr : Option CgVendor) (currDeviceId : Nat)
  | classes (m : List (Nat × Class)) (curr : Option CgClass) (currClassId : Nat)
  | atType (m : List (Nat × UsbId)) (curr : Option CgType)
  | hidType (m : List (Nat × UsbId)) (curr : Option CgType)
  | rType (m : List (Nat × UsbId)) (curr : Option CgType)
  | biasType (m : List (Nat × UsbId)) (curr : Option CgType)
  | phyType (m : List (Nat × UsbId)) (curr : Option CgType)
  | hutType (m : List (Nat × UsbIdWithChildren)) (curr : Option CgParent)
  | lang (m : List (Nat × UsbIdWithChildren)) (curr : Option CgParent)
  | countryCode (m : List (Nat × UsbId)) (curr : Option CgType)
  | terminalType (m : List (Nat × UsbId)) (curr : Option CgType)
deriving DecidableEq, Repr

/-- One finalized section table, as written to the generated source file
(the `phf::Map` statics of lib.rs). -/
inductive FinalTable where
  | vendors (t : List (Nat × Vendor))
  | classes (t : List (Nat × Class))
  | audioTerminal (t : List (Nat × UsbId))
  | hidDescriptor (t : List (Nat × UsbId))
  | hidItem (t : List (Nat × UsbId))
  | bias (t : List (Nat × UsbId))
  | phy (t : List (Nat × UsbId))
  | hut (t : List (Nat × UsbIdWithChildren))
  | language (t : List (Nat × UsbIdWithChildren))
  | countryCode (t : List (Nat × UsbId))
  | videoTerminal (t : List (Nat × UsbId))
deriving DecidableEq, Repr

/-- `devices.iter_mut().find(|d| d.id == *curr_device_id)` followed by
`curr_device.interfaces.push(...)`: appends the interface to the first device
whose id matches the re-parenting target, or fails if none matches. -/
def attachInterface (target : Nat) (i : CgType) :
    List CgDevice → Option (List CgDevice)
  | [] => none
  | d :: ds =>
    if d.id = target then some ({ d with interfaces := d.interfaces ++ [i] } :: ds)
    else (attachInterface target i ds).map (d :: ·)

/-- `sub_classes.iter_mut().find(|d| d.id == *curr_class_id)` followed by
`curr_device.children.push(...)` in the `Classes` arm. -/
def attachProtocol (target : Nat) (p : CgType) :
    List CgParent → Option (List CgParent)
  | [] => none
  | s :: ss =>
    if s.id = target then some ({ s with children := s.children ++ [p] } :: ss)
    else (attachProtocol target p ss).map (s :: ·)

/-- `ParserState::process`: dispatch one non-header line under the current
section's grammar.  Blank lines and `#` lines are no-ops.  A `.error` result
models a `panic!` (via `expect`) aborting the whole build. -/
def process (st : ParserState) (l : List Char) : Except BuildErr ParserState :=
  if l = [] ∨ l.head? = some '#' then .ok st
  else
    match st with
    | .vendors m curr cid =>
      match vendorLine l with
      | some (rest, id) =>
        let m' := match curr with
          | some cv => m ++ [(cv.id, cv.toTokens)]
          | none => m
        .ok (.vendors m' (some ⟨id, ⟨rest⟩, []⟩) cid)
      | none =>
        match curr with
        | none => .error (.expectFail "No parent vendor whilst parsing vendors")
        | some cv =>
          match deviceLine l with
          | some (rest, id) =>
            .ok (.vendors m (some { cv with devices := cv.devices ++ [⟨id, ⟨rest⟩, []⟩] }) id)
          | none =>
            match interfaceLine l with
            | some (rest, id) =>
              match attachInterface cid ⟨id, ⟨rest⟩⟩ cv.devices with
              | some ds => .ok (.vendors m (some { cv with devices := ds }) cid)
              | none => .error (.expectFail "No parent device whilst parsing interfaces")
            | none => .ok (.vendors m (some cv) cid)
    | .classes m curr cid =>
      match classLine l with
      | some (rest, id) =>
        let m' := match curr with
          | some cc => m ++ [(cc.id, cc.toTokens)]
          | none => m
        .ok (.classes m' (some ⟨id, ⟨rest⟩, []⟩) cid)
      | none =>
        match curr with
        | none => .error (.expectFail "No parent class whilst parsing classes")
        | some cc =>
          match subClassLine l with
          | some (rest, id) =>
            .ok (.classes m
              (some { cc with sub_classes := cc.sub_classes ++ [⟨id, ⟨rest⟩, []⟩] }) id)
          | none =>
            match protocolLine l with
            | some (rest, id) =>
              match attachProtocol cid ⟨id, ⟨rest⟩⟩ cc.sub_classes with
              | some ss => .ok (.classes m (some { cc with sub_classes := ss }) cid)
              | none => .error (.expectFail "No parent sub-class whilst parsing protocols")
            | none => .ok (.classes m (some cc) cid)
    | .atType m curr =>
      match atLine l with
      | some (rest, id) =>
        let m' := match curr with
          | some cv => m ++ [(cv.id, cv.toTokens)]
          | none => m
        .ok (.atType m' (some ⟨id, ⟨rest⟩⟩))
      | none => .error (.expectFail "Invalid audio terminal line")
    | .hidType m curr =>
      match hidLine l with
      | some (rest, id) =>
        let m' := match curr with
          | some cv => m ++ [(cv.id, cv.toTokens)]
          | none => m
        .ok (.hidType m' (some ⟨id, ⟨rest⟩⟩))
      | none => .error (.expectFail "Invalid hid type line")
    | .rType m curr =>
      match rLine l with
      | some (rest, id) =>
        let m' := match curr with
          | some cv => m ++ [(cv.id, cv.toTokens)]
          | none => m
        .ok (.rType m' (some ⟨id, ⟨rest⟩⟩))
      | none => .error (.expectFail "Invalid hid item type line")
    | .biasType m curr =>
      match biasLine l with
      | some (rest, id) =>
        let m' := match curr with
          | some cv => m ++ [(cv.id, cv.toTokens)]
          | none => m
        .ok (.biasType m' (some ⟨id, ⟨rest⟩⟩))
      | none => .error (.expectFail "Invalid bias type line")
    | .phyType m curr =>
      match phyLine l with
      | some (rest, id) =>
        let m' := match curr with
          | some cv => m ++ [(cv.id, cv.toTokens)]
          | none => m
        .ok (.phyType m' (some ⟨id, ⟨rest⟩⟩))
      | none => .error (.expectFail "Invalid phy type line")
    | .hutType m curr =>
      match hutLine l with
      | some (rest, id) =>
        let m' := match curr with
          | some cv => m ++ [(cv.id, cv.toTokens)]
          | none => m
        .ok (.hutType m' (some ⟨id, ⟨rest⟩, []⟩))
      | none =>
        match curr with
        | none => .error (.expectFail "No parent hut whilst parsing huts")
        | some cv =>
          match usageLine l with
          | some (rest, id) =>
            .ok (.hutType m (some { cv with children := cv.children ++ [⟨id, ⟨rest⟩⟩] }))
          | none => .ok (.hutType m (some cv))
    | .lang m curr =>
      match langLine l with
      | some (rest, id) =>
        let m' := match curr with
          | some cv => m ++ [(cv.id, cv.toTokens)]
          | none => m
        .ok (.lang m' (some ⟨id, ⟨rest⟩, []⟩))
      | none =>
        match curr with
        | none => .error (.expectFail "No parent lang whilst parsing langs")
        | some cv =>
          match dialectLine l with
          | some (rest, id) =>
            .ok (.lang m (some { cv with children := cv.children ++ [⟨id, ⟨rest⟩⟩] }))
          | none => .ok (.lang m (some cv))
    | .countryCode m curr =>
      match ccLine l with
      | some (rest, id) =>
        let m' := match curr with
          | some cv => m ++ [(cv.id, cv.toTokens)]
          | none => m
        .ok (.countryCode m' (some ⟨id, ⟨rest⟩⟩))
      | none => .error (.expectFail "Invalid country code line")
    | .terminalType m curr =>
      match vtLine l with
      | some (rest, id) =>
        let m' := match curr with
          | some cv => m ++ [(cv.id, cv.toTokens)]
          | none => m
        .ok (.terminalType m' (some ⟨id, ⟨rest⟩⟩))
      | none => .error (.expectFail "Invalid terminal type line")

/-- `ParserState::emit`: append the pending open record (if any) to the
section's map.  The open slot itself is not cleared (as in the source; `emit`
is only used from `finalize`, after which the state is discarded). -/
def ParserState.emit : ParserState → ParserState
  | .vendors m (some v) cid => .vendors (m ++ [(v.id, v.toTokens)]) (some v) cid
  | .classes m (some c) cid => .classes (m ++ [(c.id, c.toTokens)]) (some c) cid
  | .atType m (some t) => .atType (m ++ [(t.id, t.toTokens)]) (some t)
  | .hidType m (some t) => .hidType (m ++ [(t.id, t.toTokens)]) (some t)
  | .rType m (some t) => .rType (m ++ [(t.id, t.toTokens)]) (some t)
  | .biasType m (some t) => .biasType (m ++ [(t.id, t.toTokens)]) (some t)
  | .phyType m (some t) => .phyType (m ++ [(t.id, t.toTokens)]) (some t)
  | .hutType m (some t) => .hutType (m ++ [(t.id, t.toTokens)]) (some t)
  | .lang m (some t) => .lang (m ++ [(t.id, t.toTokens)]) (some t)
  | .countryCode m (some t) => .countryCode (m ++ [(t.id, t.toTokens)]) (some t)
  | .terminalType m (some t) => .terminalType (m ++ [(t.id, t.toTokens)]) (some t)
  | st => st

/-- The duplicate-key scan performed by `phf_codegen::Map::build` (keys are
inserted into a set one by one; the first key already present is fatal). -/
def firstDupKey {V : Type} (seen : List Nat) : List (Nat × V) → Option Nat
  | [] => none
  | p :: ps => if seen.contains p.1 then some p.1 else firstDupKey (p.1 :: seen) ps

/-- `phf_codegen::Map::build`: fails on a duplicate key, otherwise yields the
finished map.  (Modelled from phf_codegen's documented behavior — `build`
panics when the same key was added twice; the hashing itself is irrelevant to
the table's contents.) -/
def buildMap {V : Type} (m : List (Nat × V)) : Except BuildErr (List (Nat × V)) :=
  match firstDupKey [] m with
  | some k => .error (.duplicateKey k)
  | none => .ok m

/-- `ParserState::finalize`: emit the pending record, then build the map and
write it out.  Returns the finished section table. -/
def finalize (st : ParserState) : Except BuildErr FinalTable :=
  match st.emit with
  | .vendors m _ _ => (buildMap m).map FinalTable.vendors
  | .classes m _ _ => (buildMap m).map FinalTable.classes
  | .atType m _ => (buildMap m).map FinalTable.audioTerminal
  | .hidType m _ => (buildMap m).map FinalTable.hidDescriptor
  | .rType m _ => (buildMap m).map FinalTable.hidItem
  | .biasType m _ => (buildMap m).map FinalTable.bias
  | .phyType m _ => (buildMap m).map FinalTable.phy
  | .hutType m _ => (buildMap m).map FinalTable.hut
  | .lang m _ => (buildMap m).map FinalTable.language
  | .countryCode m _ => (buildMap m).map FinalTable.countryCode
  | .terminalType m _ => (buildMap m).map FinalTable.videoTerminal

/-- `ParserState::next_from_header` without its `finalize` side effect: which
fresh state (if any) the given line's 7-character header prefix selects.
Mirrors the `line.len() < 7 || !line.starts_with('#')` guard and the match on
`&line[..7]`. -/
def headerState (l : List Char) : Option ParserState :=
  if l.length < 7 ∨ l.head? ≠ some '#' then none
  else if l.take 7 = "# C cla".toList then some (.classes [] none 0)
  else if l.take 7 = "# AT te".toList then some (.atType [] none)
  else if l.take 7 = "# HID d".toList then some (.hidType [] none)
  else if l.take 7 = "# R ite".toList then some (.rType [] none)
  else if l.take 7 = "# BIAS ".toList then some (.biasType [] none)
  else if l.take 7 = "# PHY i".toList then some (.phyType [] none)
  else if l.take 7 = "# HUT h".toList then some (.hutType [] none)
  else if l.take 7 = "# L lan".toList then some (.lang [] none)
  else if l.take 7 = "# HCC c".toList then some (.countryCode [] none)
  else if l.take 7 = "# VT te".toList then some (.terminalType [] none)
  else none

/-- One iteration of the `for line in input.lines()` loop in `main`:
try a header transition (finalizing the current section's table into the
output on a match), then process the line with the current parser. -/
def stepLine (st : ParserState) (out : List FinalTable) (l : List Char) :
    Except BuildErr (ParserState × List FinalTable) := do
  let (st1, out1) ←
    match headerState l with
    | some ns => do
      let t ← finalize st
      pure ((ns : ParserState), out ++ [t])
    | none => pure (st, out)
  let st2 ← process st1 l
  pure (st2, out1)

/-- The whole line loop of `main`, without the trailing `finalize`. -/
def stepLines (st : ParserState) (out : List FinalTable) :
    List (List Char) → Except BuildErr (ParserState × List FinalTable)
  | [] => .ok (st, out)
  | l :: ls => do
    let (st1, out1) ← stepLine st out l
    stepLines st1 out1 ls

/-- `main`'s parse, from the initial `ParserState::Vendors(Map::new(), None, 0)`
state through the line loop and the final `parser_state.finalize(&mut output)`:
the list of finished section tables written to the generated file. -/
def compile (lines : List (List Char)) : Except BuildErr (List FinalTable) := do
  let (st, out) ← stepLines (.vendors [] none 0) [] lines
  let t ← finalize st
  pure (out ++ [t])

/-! ## The query layer of `src/lib.rs` over a finished table -/

/-- `impl FromId<u16> for Vendor`: `USB_IDS.get(&id)`. -/
def vendorFromId (t : List (Nat × Vendor)) (i : Nat) : Option Vendor :=
  (t.find? (fun p => p.1 == i)).map (·.2)

/-- `Device::from_vid_pid`: vendor lookup, then a linear scan of its devices. -/
def fromVidPid (t : List (Nat × Vendor)) (vid pid : Nat) : Option Device :=
  (vendorFromId t vid).bind (fun v => v.devices.find? (fun d => d.id == pid))

/-- `impl FromId<u8> for Class`: `USB_CLASSES.get(&id)`. -/
def classFromId (t : List (Nat × Class)) (i : Nat) : Option Class :=
  (t.find? (fun p => p.1 == i)).map (·.2)

/-- `Device::vendor` without the final `unwrap`: `USB_IDS.get(&self.vendor_id)`.
The claim of interest is that this is always `some`. -/
def deviceVendor (t : List (Nat × Vendor)) (d : Device) : Option Vendor :=
  vendorFromId t d.vendor_id

/-- `SubClass::class` without the final `unwrap`: `USB_CLASSES.get(&self.class_id)`. -/
def subClassClass (t : List (Nat × Class)) (s : SubClass) : Option Class :=
  classFromId t s.class_id

instance {ε α : Type} [DecidableEq ε] [DecidableEq α] : DecidableEq (Except ε α) := fun x y =>
  match x, y with
  | .ok a, .ok b =>
    if h : a = b then .isTrue (congrArg Except.ok h)
    else .isFalse (fun hh => h (Except.ok.inj hh))
  | .error a, .error b =>
    if h : a = b then .isTrue (congrArg Except.error h)
    else .isFalse (fun hh => h (Except.error.inj hh))
  | .ok _, .error _ => .isFalse (fun hh => Except.noConfusion hh)
  | .error _, .ok _ => .isFalse (fun hh => Except.noConfusion hh)

/-! ## Classifiers over the parser state, used to phrase the claims -/

/-- The section kind a parser state is in (forgetting its contents). -/
inductive SectionKind where
  | vendors | classes | audioTerminal | hidDescriptor | hidItem
  | bias | phy | hut | language | countryCode | videoTerminal
deriving DecidableEq, Repr

/-- Section kind of a state. -/
def ParserState.kind : ParserState → SectionKind
  | .vendors _ _ _ => .vendors
  | .classes _ _ _ => .classes
  | .atType _ _ => .audioTerminal
  | .hidType _ _ => .hidDescriptor
  | .rType _ _ => .hidItem
  | .biasType _ _ => .bias
  | .phyType _ _ => .phy
  | .hutType _ _ => .hut
  | .lang _ _ => .language
  | .countryCode _ _ => .countryCode
  | .terminalType _ _ => .videoTerminal

/-- Whether the state has an open (pending) depth-0 record. -/
def hasOpen : ParserState → Bool
  | .vendors _ c _ => c.isSome
  | .classes _ c _ => c.isSome
  | .atType _ c => c.isSome
  | .hidType _ c => c.isSome
  | .rType _ c => c.isSome
  | .biasType _ c => c.isSome
  | .phyType _ c => c.isSome
  | .hutType _ c => c.isSome
  | .lang _ c => c.isSome
  | .countryCode _ c => c.isSome
  | .terminalType _ c => c.isSome

/-- Whether the state's section has nested (multi-depth) grammar:
vendors, classes, HID usage pages and languages. -/
def nested : ParserState → Bool
  | .vendors _ _ _ => true
  | .classes _ _ _ => true
  | .hutType _ _ => true
  | .lang _ _ => true
  | _ => false

/-- Whether the line matches some depth's grammar of the state's section. -/
def grammarMatch : ParserState → List Char → Bool
  | .vendors _ _ _, l =>
    (vendorLine l).isSome || (deviceLine l).isSome || (interfaceLine l).isSome
  | .classes _ _ _, l =>
    (classLine l).isSome || (subClassLine l).isSome || (protocolLine l).isSome
  | .atType _ _, l => (atLine l).isSome
  | .hidType _ _, l => (hidLine l).isSome
  | .rType _ _, l => (rLine l).isSome
  | .biasType _ _, l => (biasLine l).isSome
  | .phyType _ _, l => (phyLine l).isSome
  | .hutType _ _, l => (hutLine l).isSome || (usageLine l).isSome
  | .lang _ _, l => (langLine l).isSome || (dialectLine l).isSome
  | .countryCode _ _, l => (ccLine l).isSome
  | .terminalType _ _, l => (vtLine l).isSome

/-- Back-references resolve in a finished table: every device's
`Device::vendor()` lookup and every subclass's `SubClass::class()` lookup
finds its parent (so the `unwrap` in lib.rs cannot panic). -/
def tableBacklinksOK : FinalTable → Prop
  | .vendors t => ∀ p ∈ t, ∀ d ∈ p.2.devices, (deviceVendor t d).isSome = true
  | .classes t => ∀ p ∈ t, ∀ s ∈ p.2.sub_classes, (subClassClass t s).isSome = true
  | _ => True

/-- Every device of a rendered vendor refers back to the vendor it was emitted
inside. -/
def vendorOK (v : Vendor) : Prop := ∀ d ∈ v.devices, d.vendor_id = v.id

/-- Every subclass of a rendered class refers back to the class it was emitted
inside. -/
def classOK (c : Class) : Prop := ∀ s ∈ c.sub_classes, s.class_id = c.id

/-- Key/value discipline of the in-progress vendor map: each entry is keyed by
its record's id and its devices point back at it. -/
def vtableInv (m : List (Nat × Vendor)) : Prop := ∀ p ∈ m, p.1 = p.2.id ∧ vendorOK p.2

/-- Key/value discipline of the in-progress class map. -/
def ctableInv (m : List (Nat × Class)) : Prop := ∀ p ∈ m, p.1 = p.2.id ∧ classOK p.2

/-- The parser-state invariant needed for back-reference safety. -/
def stInv : ParserState → Prop
  | .vendors m _ _ => vtableInv m
  | .classes m _ _ => ctableInv m
  | _ => True

/-- The table invariant needed for back-reference safety. -/
def ftInv : FinalTable → Prop
  | .vendors t => vtableInv t
  | .classes t => ctableInv t
  | _ => True

/-! ## Shape lemmas about the record-line parsers -/

/-- Inversion for `tagP`: success means the input is the tag followed by the rest. -/
theorem tagP_some_iff {t l r : List Char} : tagP t l = some r ↔ l = t ++ r := by
  unfold tagP
  by_cases hp : t.isPrefixOf l = true
  · rw [if_pos hp]
    obtain ⟨u, hu⟩ := List.isPrefixOf_iff_prefix.mp hp
    subst hu
    rw [List.drop_left]
    simp
  · rw [if_neg hp]
    constructor
    · intro h
      exact Option.noConfusion h
    · intro h
      exact absurd (List.isPrefixOf_iff_prefix.mpr ⟨r, h.symm⟩) hp

/-- Inversion for `idP`: success means the input starts with exactly `size`
hex digits whose base-16 value is the result. -/
theorem idP_some_iff {size : Nat} {l r : List Char} {v : Nat} :
    idP size l = some (v, r) ↔
      ∃ ds, l = ds ++ r ∧ ds.length = size ∧ ds ≠ [] ∧ ds.all isHexDigitChar = true ∧
        v = hexValue ds := by
  unfold idP
  by_cases hlen : l.length < size
  · rw [if_pos hlen]
    constructor
    · intro h
      exact Option.noConfusion h
    · rintro ⟨ds, rfl, rfl, -, -, -⟩
      rw [List.length_append] at hlen
      omega
  · rw [if_neg hlen]
    by_cases hg : l.take size ≠ [] ∧ (l.take size).all isHexDigitChar = true
    · rw [if_pos hg]
      constructor
      · intro h
        have h' := Option.some.inj h
        have hv : v = hexValue (l.take size) := (congrArg Prod.fst h').symm
        have hr : r = l.drop size := (congrArg Prod.snd h').symm
        subst hr
        refine ⟨l.take size, (List.take_append_drop size l).symm, ?_, hg.1, hg.2, hv⟩
        rw [List.length_take]
        omega
      · rintro ⟨ds, rfl, hlen2, hne, hall, rfl⟩
        subst hlen2
        rw [List.take_left, List.drop_left]
    · rw [if_neg hg]
      constructor
      · intro h
        exact Option.noConfusion h
      · rintro ⟨ds, rfl, hlen2, hne, hall, rfl⟩
        subst hlen2
        rw [List.take_left] at hg
        exact absurd ⟨hne, hall⟩ hg

/-- Full characterization of a successful `delimited(tag(pre), id(size), tag("  "))`
parse: the line is the literal prefix, exactly `size` hex digits, two spaces and
the name, and the value is the base-16 reading of those digits. -/
theorem delimitedId_some_iff {pre : List Char} {size : Nat} {l rest : List Char} {v : Nat} :
    delimitedId pre size l = some (rest, v) ↔
      ∃ ds, l = pre ++ ds ++ [' ', ' '] ++ rest ∧ ds.length = size ∧ ds ≠ [] ∧
        ds.all isHexDigitChar = true ∧ v = hexValue ds := by
  constructor
  · intro h
    unfold delimitedId at h
    split at h
    · exact Option.noConfusion h
    rename_i r1 h1
    split at h
    · exact Option.noConfusion h
    rename_i v' r2 h2
    split at h
    · exact Option.noConfusion h
    rename_i r3 h3
    have h' := Option.some.inj h
    have hrest : r3 = rest := congrArg Prod.fst h'
    have hv : v' = v := congrArg Prod.snd h'
    subst hrest
    subst hv
    have hl1 := tagP_some_iff.mp h1
    obtain ⟨ds, hds, hlen, hne, hall, hv⟩ := idP_some_iff.mp h2
    have hl3 := tagP_some_iff.mp h3
    refine ⟨ds, ?_, hlen, hne, hall, hv⟩
    rw [hl1, hds, hl3]
    simp
  · rintro ⟨ds, rfl, rfl, hne, hall, rfl⟩
    have htag : tagP pre (pre ++ (ds ++ ([' ', ' '] ++ rest)))
        = some (ds ++ ([' ', ' '] ++ rest)) := tagP_some_iff.mpr rfl
    have hid : idP ds.length (ds ++ ([' ', ' '] ++ rest))
        = some (hexValue ds, [' ', ' '] ++ rest) :=
      idP_some_iff.mpr ⟨ds, rfl, rfl, hne, hall, rfl⟩
    have htag2 : tagP [' ', ' '] ([' ', ' '] ++ rest) = some rest := tagP_some_iff.mpr rfl
    simp only [delimitedId, List.append_assoc, htag, hid, htag2]

/-- A line accepted by a parser with a nonempty literal prefix starts with that
prefix's first character. -/
theorem delimitedId_head {c : Char} {pre : List Char} {size : Nat} {l rest : List Char}
    {v : Nat} (h : delimitedId (c :: pre) size l = some (rest, v)) : ∃ t, l = c :: t := by
  obtain ⟨ds, hl, _⟩ := delimitedId_some_iff.mp h
  exact ⟨pre ++ ds ++ [' ', ' '] ++ rest, by simpa using hl⟩

/-- A line whose first character is not a hex digit is rejected by
`parser::vendor` (whose grammar starts with four hex digits). -/
theorem vendorLine_none_of_head {c : Char} {t : List Char} (hc : isHexDigitChar c = false) :
    vendorLine (c :: t) = none := by
  rcases h : vendorLine (c :: t) with _ | ⟨rest, v⟩
  · rfl
  · exfalso
    obtain ⟨ds, hl, hlen, hne, hall, _⟩ := delimitedId_some_iff.mp h
    cases ds with
    | nil => exact hne rfl
    | cons d ds' =>
      have hcd : c = d := by simpa using congrArg List.head? hl
      rw [List.all_cons] at hall
      rw [hcd] at hc
      rw [hc] at hall
      simp at hall

/-- Lines that do not start with `#` are never recognized as section headers. -/
theorem headerState_ne_hash {l : List Char} (h : l.head? ≠ some '#') :
    headerState l = none := by
  unfold headerState
  rw [if_pos (Or.inr h)]

/-- `process` ignores `#`-prefixed lines (comments and headers). -/
theorem process_hash (st : ParserState) {l : List Char} (h : l.head? = some '#') :
    process st l = .ok st := by
  unfold process
  rw [if_pos (Or.inr h)]

/-! ## Behavior of `process` on lines that match no grammar of the section -/

/-- In the audio-terminal section every non-blank non-`#` line that fails the
grammar panics (the `expect` on the parse result). -/
theorem process_atType_unmatched (m : List (Nat × UsbId)) (curr : Option CgType)
    {l : List Char} (hcond : ¬(l = [] ∨ l.head? = some '#')) (h : atLine l = none) :
    process (.atType m curr) l = .error (.expectFail "Invalid audio terminal line") := by
  unfold process
  rw [if_neg hcond]
  simp only [h]

/-- Same for the HID-descriptor section. -/
theorem process_hidType_unmatched (m : List (Nat × UsbId)) (curr : Option CgType)
    {l : List Char} (hcond : ¬(l = [] ∨ l.head? = some '#')) (h : hidLine l = none) :
    process (.hidType m curr) l = .error (.expectFail "Invalid hid type line") := by
  unfold process
  rw [if_neg hcond]
  simp only [h]

/-- Same for the HID item-type section. -/
theorem process_rType_unmatched (m : List (Nat × UsbId)) (curr : Option CgType)
    {l : List Char} (hcond : ¬(l = [] ∨ l.head? = some '#')) (h : rLine l = none) :
    process (.rType m curr) l = .error (.expectFail "Invalid hid item type line") := by
  unfold process
  rw [if_neg hcond]
  simp only [h]

/-- Same for the bias section. -/
theorem process_biasType_unmatched (m : List (Nat × UsbId)) (curr : Option CgType)
    {l : List Char} (hcond : ¬(l = [] ∨ l.head? = some '#')) (h : biasLine l = none) :
    process (.biasType m curr) l = .error (.expectFail "Invalid bias type line") := by
  unfold process
  rw [if_neg hcond]
  simp only [h]

/-- Same for the phy section. -/
theorem process_phyType_unmatched (m : List (Nat × UsbId)) (curr : Option CgType)
    {l : List Char} (hcond : ¬(l = [] ∨ l.head? = some '#')) (h : phyLine l = none) :
    process (.phyType m curr) l = .error (.expectFail "Invalid phy type line") := by
  unfold process
  rw [if_neg hcond]
  simp only [h]

/-- Same for the country-code section. -/
theorem process_countryCode_unmatched (m : List (Nat × UsbId)) (curr : Option CgType)
    {l : List Char} (hcond : ¬(l = [] ∨ l.head? = some '#')) (h : ccLine l = none) :
    process (.countryCode m curr) l = .error (.expectFail "Invalid country code line") := by
  unfold process
  rw [if_neg hcond]
  simp only [h]

/-- Same for the video-terminal section. -/
theorem process_terminalType_unmatched (m : List (Nat × UsbId)) (curr : Option CgType)
    {l : List Char} (hcond : ¬(l = [] ∨ l.head? = some '#')) (h : vtLine l = none) :
    process (.terminalType m curr) l = .error (.expectFail "Invalid terminal type line") := by
  unfold process
  rw [if_neg hcond]
  simp only [h]

/-- In the vendor section with a vendor open, a line failing all three depths'
grammars is silently skipped: the state is returned unchanged. -/
theorem process_vendors_skip (m : List (Nat × Vendor)) (cv : CgVendor) (cid : Nat)
    {l : List Char} (hcond : ¬(l = [] ∨ l.head? = some '#'))
    (hv : vendorLine l = none) (hd : deviceLine l = none) (hi : interfaceLine l = none) :
    process (.vendors m (some cv) cid) l = .ok (.vendors m (some cv) cid) := by
  unfold process
  rw [if_neg hcond]
  simp only [hv, hd, hi]

/-- In the vendor section with no vendor open, any line failing the vendor
grammar aborts the build. -/
theorem process_vendors_orphan (m : List (Nat × Vendor)) (cid : Nat)
    {l : List Char} (hcond : ¬(l = [] ∨ l.head? = some '#')) (hv : vendorLine l = none) :
    process (.vendors m none cid) l
      = .error (.expectFail "No parent vendor whilst parsing vendors") := by
  unfold process
  rw [if_neg hcond]
  simp only [hv]

/-- In the class section with a class open, a line failing all three depths'
grammars is silently skipped. -/
theorem process_classes_skip (m : List (Nat × Class)) (cc : CgClass) (cid : Nat)
    {l : List Char} (hcond : ¬(l = [] ∨ l.head? = some '#'))
    (hc : classLine l = none) (hs : subClassLine l = none) (hp : protocolLine l = none) :
    process (.classes m (some cc) cid) l = .ok (.classes m (some cc) cid) := by
  unfold process
  rw [if_neg hcond]
  simp only [hc, hs, hp]

/-- In the class section with no class open, any line failing the class grammar
aborts the build. -/
theorem process_classes_orphan (m : List (Nat × Class)) (cid : Nat)
    {l : List Char} (hcond : ¬(l = [] ∨ l.head? = some '#')) (hc : classLine l = none) :
    process (.classes m none cid) l
      = .error (.expectFail "No parent class whilst parsing classes") := by
  unfold process
  rw [if_neg hcond]
  simp only [hc]

/-- In the HID usage-page section with a page open, a line failing both
grammars is silently skipped. -/
theorem process_hutType_skip (m : List (Nat × UsbIdWithChildren)) (ch : CgParent)
    {l : List Char} (hcond : ¬(l = [] ∨ l.head? = some '#'))
    (hh : hutLine l = none) (hu : usageLine l = none) :
    process (.hutType m (some ch)) l = .ok (.hutType m (some ch)) := by
  unfold process
  rw [if_neg hcond]
  simp only [hh, hu]

/-- In the HID usage-page section with no page open, any line failing the page
grammar aborts the build. -/
theorem process_hutType_orphan (m : List (Nat × UsbIdWithChildren))
    {l : List Char} (hcond : ¬(l = [] ∨ l.head? = some '#')) (hh : hutLine l = none) :
    process (.hutType m none) l = .error (.expectFail "No parent hut whilst parsing huts") := by
  unfold process
  rw [if_neg hcond]
  simp only [hh]

/-- In the language section with a language open, a line failing both grammars
is silently skipped. -/
theorem process_lang_skip (m : List (Nat × UsbIdWithChildren)) (cl : CgParent)
    {l : List Char} (hcond : ¬(l = [] ∨ l.head? = some '#'))
    (hl2 : langLine l = none) (hd : dialectLine l = none) :
    process (.lang m (some cl)) l = .ok (.lang m (some cl)) := by
  unfold process
  rw [if_neg hcond]
  simp only [hl2, hd]

/-- In the language section with no language open, any line failing the
language grammar aborts the build. -/
theorem process_lang_orphan (m : List (Nat × UsbIdWithChildren))
    {l : List Char} (hcond : ¬(l = [] ∨ l.head? = some '#')) (hl2 : langLine l = none) :
    process (.lang m none) l = .error (.expectFail "No parent lang whilst parsing langs") := by
  unfold process
  rw [if_neg hcond]
  simp only [hl2]

/-! ## Claim theorems -/

/-- **C1.** In the vendor section, interfaces re-parent to the most recently
opened device: with vendor `AAAA`, device `0001` + interface `00  IfaceA`,
then device `0002` + interface `00  IfaceB`, the compiled table attaches
IfaceA to device 1 and IfaceB to device 2 — each interface appears only in
its own device's interface list. -/
theorem c1_reparenting :
    compile ["AAAA  VendorX".toList, "\t0001  Dev1".toList, "\t\t00  IfaceA".toList,
        "\t0002  Dev2".toList, "\t\t00  IfaceB".toList]
      = .ok [.vendors [(0xAAAA, ⟨0xAAAA, "VendorX",
          [⟨0xAAAA, 1, "Dev1", [⟨0, "IfaceA"⟩]⟩,
           ⟨0xAAAA, 2, "Dev2", [⟨0, "IfaceB"⟩]⟩]⟩)]] := by decide

/-- **C2.** End-to-end literal scenario: compiling
`1D6B  Linux Foundation` / `\t0003  3.0 root hub` yields a vendor table in
which `Vendor::from_id(0x1D6B)` has name "Linux Foundation" and
`Device::from_vid_pid(0x1D6B, 0x0003)` has name "3.0 root hub". -/
theorem c2_linux_foundation :
    ∃ t, compile ["1D6B  Linux Foundation".toList, "\t0003  3.0 root hub".toList]
        = .ok [.vendors t]
      ∧ (vendorFromId t 0x1D6B).map Vendor.name = some "Linux Foundation"
      ∧ (fromVidPid t 0x1D6B 0x0003).map Device.name = some "3.0 root hub" :=
  ⟨[(0x1D6B, ⟨0x1D6B, "Linux Foundation", [⟨0x1D6B, 3, "3.0 root hub", []⟩]⟩)],
    by decide, by decide, by decide⟩

/-- **C3 counterexample.** The claim says every non-blank, non-comment line
matching no depth's grammar aborts the compile.  It does not: in the vendor
section, with a vendor open, the line `zzzz not a match` (which matches no
grammar at any depth) is silently skipped and the build succeeds. -/
theorem c3_counterexample :
    compile ["AAAA  VendorX".toList, "zzzz not a match".toList]
      = .ok [.vendors [(0xAAAA, ⟨0xAAAA, "VendorX", []⟩)]] := by decide

/-- `process` on a device line while a vendor is open: the device is appended
at the end of the open vendor's device list, and its id becomes the
re-parenting target `curr_device_id`. -/
theorem process_device (m : List (Nat × Vendor)) (cv : CgVendor) (cid : Nat)
    {l rest : List Char} {i : Nat} (h : deviceLine l = some (rest, i)) :
    process (.vendors m (some cv) cid) l
      = .ok (.vendors m (some { cv with devices := cv.devices ++ [⟨i, ⟨rest⟩, []⟩] }) i) := by
  obtain ⟨t, rfl⟩ := delimitedId_head h
  have hv : vendorLine ('\t' :: t) = none := vendorLine_none_of_head (by decide)
  unfold process
  rw [if_neg ?_]
  · simp only [hv, h]
  · rintro (h1 | h2)
    · exact List.noConfusion h1
    · rw [List.head?_cons] at h2
      exact absurd (Option.some.inj h2) (by decide)

/-- A successful `process` step never changes which section the parser is in. -/
theorem process_kind {st st' : ParserState} {l : List Char} (h : process st l = .ok st') :
    st'.kind = st.kind := by
  cases st <;>
    (simp only [process] at h
     repeat' split at h) <;>
    first
      | exact Except.noConfusion h
      | (cases Except.ok.inj h; rfl)

/-- `stepLine` on a non-header line is just `process` (no table is flushed). -/
theorem stepLine_of_no_header {st : ParserState} {out : List FinalTable} {l : List Char}
    (hh : headerState l = none) :
    stepLine st out l = (process st l).map (fun s => (s, out)) := by
  unfold stepLine
  rw [hh]
  cases hp : process st l with
  | error e => simp [hp, Except.map]
  | ok s => simp [hp, Except.map]

/-- `bind` on a successful `Except` computation. -/
theorem bind_ok_eq {ε α β : Type} (a : α) (f : α → Except ε β) :
    (do let x ← (.ok a : Except ε α); f x) = f a := rfl

/-- `bind` on a failed `Except` computation. -/
theorem bind_err_eq {ε α β : Type} (e : ε) (f : α → Except ε β) :
    (do let x ← (.error e : Except ε α); f x) = .error e := rfl

/-- `map` on a successful `Except` computation. -/
theorem map_ok_eq {ε α β : Type} (a : α) (f : α → β) :
    ((.ok a : Except ε α).map f) = .ok (f a) := rfl

/-- `map` on a failed `Except` computation. -/
theorem map_err_eq {ε α β : Type} (e : ε) (f : α → β) :
    ((.error e : Except ε α).map f) = .error e := rfl

/-- Unfolding of the line loop on a successful step. -/
theorem stepLines_cons_ok {st st1 : ParserState} {out out1 : List FinalTable} {l : List Char}
    {ls : List (List Char)} (h : stepLine st out l = .ok (st1, out1)) :
    stepLines st out (l :: ls) = stepLines st1 out1 ls := by
  conv_lhs => simp only [stepLines]
  rw [h]
  rfl

/-- Unfolding of the line loop on a failing step. -/
theorem stepLines_cons_err {st : ParserState} {out : List FinalTable} {l : List Char}
    {ls : List (List Char)} {e : BuildErr} (h : stepLine st out l = .error e) :
    stepLines st out (l :: ls) = .error e := by
  conv_lhs => simp only [stepLines]
  rw [h]
  rfl

/-- Running the line loop over a list of device lines appends the devices,
in file order, to the end of the open vendor's device list, and leaves the
re-parenting target at the last device's id. -/
theorem stepLines_devices :
    ∀ (pairs : List (List Char × Nat × List Char)),
      (∀ p ∈ pairs, deviceLine p.1 = some (p.2.2, p.2.1)) →
      ∀ (m : List (Nat × Vendor)) (out : List FinalTable) (cv : CgVendor) (cid : Nat),
        stepLines (.vendors m (some cv) cid) out (pairs.map (·.1))
          = .ok (.vendors m
              (some { cv with
                devices := cv.devices ++ pairs.map (fun p => ⟨p.2.1, ⟨p.2.2⟩, []⟩) })
              (pairs.foldl (fun _ p => p.2.1) cid), out) := by
  intro pairs
  induction pairs with
  | nil =>
    intro _ m out cv cid
    simp [stepLines]
  | cons p ps ih =>
    intro h m out cv cid
    have hp : deviceLine p.1 = some (p.2.2, p.2.1) := h p (List.mem_cons_self p ps)
    have hh : headerState p.1 = none := by
      obtain ⟨t, ht⟩ := delimitedId_head hp
      rw [ht]
      refine headerState_ne_hash ?_
      rw [List.head?_cons]
      intro hcontra
      exact absurd (Option.some.inj hcontra) (by decide)
    have hstep : stepLine (.vendors m (some cv) cid) out p.1
        = .ok (.vendors m
            (some { cv with devices := cv.devices ++ [⟨p.2.1, ⟨p.2.2⟩, []⟩] }) p.2.1, out) := by
      rw [stepLine_of_no_header hh, process_device m cv cid hp]
      rfl
    rw [List.map_cons, stepLines_cons_ok hstep,
      ih (fun q hq => h q (List.mem_cons_of_mem p hq)) m out _ p.2.1]
    simp [List.append_assoc]

/-- **C4.** The hex id field must be exactly the declared width followed by two
spaces.  Concretely `AAAAA  Name` (5 digits) matches no depth of the vendor
section's grammar; and in general every successful `parser::vendor` parse
consumed exactly 4 hex digits and two spaces, with the id the base-16 value of
those digits — never a truncated prefix of a longer field. -/
theorem c4_exact_width :
    (vendorLine "AAAAA  Name".toList = none ∧ deviceLine "AAAAA  Name".toList = none ∧
        interfaceLine "AAAAA  Name".toList = none) ∧
      ∀ l rest v, vendorLine l = some (rest, v) →
        ∃ ds, l = ds ++ [' ', ' '] ++ rest ∧ ds.length = 4 ∧
          ds.all isHexDigitChar = true ∧ v = hexValue ds := by
  refine ⟨by decide, ?_⟩
  intro l rest v h
  obtain ⟨ds, hl, hlen, hne, hall, hv⟩ := delimitedId_some_iff.mp h
  exact ⟨ds, by simpa using hl, hlen, hall, hv⟩

/-- Witness for C4 at the concrete line `1D6B  Linux Foundation`. -/
theorem c4_exact_width_witness :
    ∃ ds, "1D6B  Linux Foundation".toList = ds ++ [' ', ' '] ++ "Linux Foundation".toList ∧
      ds.length = 4 ∧ ds.all isHexDigitChar = true ∧ 0x1D6B = hexValue ds :=
  c4_exact_width.2 "1D6B  Linux Foundation".toList "Linux Foundation".toList 0x1D6B (by decide)

/-- **C7.** A device (depth-1) line in the vendor section with no vendor open is
fatal: the `expect` on `curr_vendor` panics with "No parent vendor whilst
parsing vendors" and the build aborts — the child is neither attached anywhere
nor skipped. -/
theorem c7_orphan_child (m : List (Nat × Vendor)) (cid : Nat) (l : List Char)
    (r : List Char × Nat) (h : deviceLine l = some r) :
    process (.vendors m none cid) l
      = .error (.expectFail "No parent vendor whilst parsing vendors") := by
  obtain ⟨r1, r2⟩ := r
  obtain ⟨t, rfl⟩ := delimitedId_head h
  have hv : vendorLine ('\t' :: t) = none := vendorLine_none_of_head (by decide)
  unfold process
  rw [if_neg ?_]
  · simp only [hv]
  · rintro (h1 | h2)
    · exact List.noConfusion h1
    · rw [List.head?_cons] at h2
      exact absurd (Option.some.inj h2) (by decide)

/-- Witness for C7: a device line as the first line of the vendor section. -/
theorem c7_orphan_child_witness :
    process (.vendors [] none 0) "\t0001  Dev1".toList
      = .error (.expectFail "No parent vendor whilst parsing vendors") :=
  c7_orphan_child [] 0 "\t0001  Dev1".toList ("Dev1".toList, 1) (by decide)

/-- **C3 (amended).** For a non-blank, non-comment line matching no depth's
grammar of the current section: the build aborts when the section is
single-level, and also when no depth-0 record is open in a nested section; but
in a nested section with an open depth-0 record the line is silently skipped,
leaving the state unchanged. -/
theorem c3_unmatched_line_policy (st : ParserState) (l : List Char)
    (hne : l ≠ []) (hnc : l.head? ≠ some '#')
    (hnm : grammarMatch st l = false) :
    ((hasOpen st = false ∨ nested st = false) → ∃ e, process st l = .error e) ∧
    (hasOpen st = true → nested st = true → process st l = .ok st) := by
  have hcond : ¬(l = [] ∨ l.head? = some '#') := by
    rintro (h1 | h2)
    · exact hne h1
    · exact hnc h2
  cases st with
  | vendors m curr cid =>
    have hv : vendorLine l = none := by
      cases h' : vendorLine l with
      | none => rfl
      | some x => rw [grammarMatch, h'] at hnm; simp at hnm
    have hd : deviceLine l = none := by
      cases h' : deviceLine l with
      | none => rfl
      | some x => rw [grammarMatch, h'] at hnm; simp at hnm
    have hi : interfaceLine l = none := by
      cases h' : interfaceLine l with
      | none => rfl
      | some x => rw [grammarMatch, h'] at hnm; simp at hnm
    cases curr with
    | none =>
      exact ⟨fun _ => ⟨_, process_vendors_orphan m cid hcond hv⟩,
        fun hopen _ => by simp [hasOpen] at hopen⟩
    | some cv =>
      refine ⟨fun hcase => ?_, fun _ _ => process_vendors_skip m cv cid hcond hv hd hi⟩
      rcases hcase with h1 | h2
      · simp [hasOpen] at h1
      · simp [nested] at h2
  | classes m curr cid =>
    have hc : classLine l = none := by
      cases h' : classLine l with
      | none => rfl
      | some x => rw [grammarMatch, h'] at hnm; simp at hnm
    have hs : subClassLine l = none := by
      cases h' : subClassLine l with
      | none => rfl
      | some x => rw [grammarMatch, h'] at hnm; simp at hnm
    have hp : protocolLine l = none := by
      cases h' : protocolLine l with
      | none => rfl
      | some x => rw [grammarMatch, h'] at hnm; simp at hnm
    cases curr with
    | none =>
      exact ⟨fun _ => ⟨_, process_classes_orphan m cid hcond hc⟩,
        fun hopen _ => by simp [hasOpen] at hopen⟩
    | some cc =>
      refine ⟨fun hcase => ?_, fun _ _ => process_classes_skip m cc cid hcond hc hs hp⟩
      rcases hcase with h1 | h2
      · simp [hasOpen] at h1
      · simp [nested] at h2
  | atType m curr =>
    have h : atLine l = none := by
      cases h' : atLine l with
      | none => rfl
      | some x => rw [grammarMatch, h'] at hnm; simp at hnm
    exact ⟨fun _ => ⟨_, process_atType_unmatched m curr hcond h⟩,
      fun _ hn => by simp [nested] at hn⟩
  | hidType m curr =>
    have h : hidLine l = none := by
      cases h' : hidLine l with
      | none => rfl
      | some x => rw [grammarMatch, h'] at hnm; simp at hnm
    exact ⟨fun _ => ⟨_, process_hidType_unmatched m curr hcond h⟩,
      fun _ hn => by simp [nested] at hn⟩
  | rType m curr =>
    have h : rLine l = none := by
      cases h' : rLine l with
      | none => rfl
      | some x => rw [grammarMatch, h'] at hnm; simp at hnm
    exact ⟨fun _ => ⟨_, process_rType_unmatched m curr hcond h⟩,
      fun _ hn => by simp [nested] at hn⟩
  | biasType m curr =>
    have h : biasLine l = none := by
      cases h' : biasLine l with
      | none => rfl
      | some x => rw [grammarMatch, h'] at hnm; simp at hnm
    exact ⟨fun _ => ⟨_, process_biasType_unmatched m curr hcond h⟩,
      fun _ hn => by simp [nested] at hn⟩
  | phyType m curr =>
    have h : phyLine l = none := by
      cases h' : phyLine l with
      | none => rfl
      | some x => rw [grammarMatch, h'] at hnm; simp at hnm
    exact ⟨fun _ => ⟨_, process_phyType_unmatched m curr hcond h⟩,
      fun _ hn => by simp [nested] at hn⟩
  | hutType m curr =>
    have hh : hutLine l = none := by
      cases h' : hutLine l with
      | none => rfl
      | some x => rw [grammarMatch, h'] at hnm; simp at hnm
    have hu : usageLine l = none := by
      cases h' : usageLine l with
      | none => rfl
      | some x => rw [grammarMatch, h'] at hnm; simp at hnm
    cases curr with
    | none =>
      exact ⟨fun _ => ⟨_, process_hutType_orphan m hcond hh⟩,
        fun hopen _ => by simp [hasOpen] at hopen⟩
    | some ch =>
      refine ⟨fun hcase => ?_, fun _ _ => process_hutType_skip m ch hcond hh hu⟩
      rcases hcase with h1 | h2
      · simp [hasOpen] at h1
      · simp [nested] at h2
  | lang m curr =>
    have hl2 : langLine l = none := by
      cases h' : langLine l with
      | none => rfl
      | some x => rw [grammarMatch, h'] at hnm; simp at hnm
    have hd : dialectLine l = none := by
      cases h' : dialectLine l with
      | none => rfl
      | some x => rw [grammarMatch, h'] at hnm; simp at hnm
    cases curr with
    | none =>
      exact ⟨fun _ => ⟨_, process_lang_orphan m hcond hl2⟩,
        fun hopen _ => by simp [hasOpen] at hopen⟩
    | some cl =>
      refine ⟨fun hcase => ?_, fun _ _ => process_lang_skip m cl hcond hl2 hd⟩
      rcases hcase with h1 | h2
      · simp [hasOpen] at h1
      · simp [nested] at h2
  | countryCode m curr =>
    have h : ccLine l = none := by
      cases h' : ccLine l with
      | none => rfl
      | some x => rw [grammarMatch, h'] at hnm; simp at hnm
    exact ⟨fun _ => ⟨_, process_countryCode_unmatched m curr hcond h⟩,
      fun _ hn => by simp [nested] at hn⟩
  | terminalType m curr =>
    have h : vtLine l = none := by
      cases h' : vtLine l with
      | none => rfl
      | some x => rw [grammarMatch, h'] at hnm; simp at hnm
    exact ⟨fun _ => ⟨_, process_terminalType_unmatched m curr hcond h⟩,
      fun _ hn => by simp [nested] at hn⟩

/-- Witness for the amended C3: the unmatched line `zzzz junk` aborts the
single-level audio-terminal section, and is silently skipped in the vendor
section while a vendor is open. -/
theorem c3_unmatched_line_policy_witness :
    (∃ e, process (.atType [] none) "zzzz junk".toList = .error e) ∧
    process (.vendors [] (some ⟨0xAAAA, "VendorX", []⟩) 0) "zzzz junk".toList
      = .ok (.vendors [] (some ⟨0xAAAA, "VendorX", []⟩) 0) :=
  ⟨(c3_unmatched_line_policy (.atType [] none) "zzzz junk".toList
      (by decide) (by decide) (by decide)).1 (Or.inl rfl),
   (c3_unmatched_line_policy (.vendors [] (some ⟨0xAAAA, "VendorX", []⟩) 0)
      "zzzz junk".toList (by decide) (by decide) (by decide)).2 rfl rfl⟩

/-- **C10.** Error treatment of unmatched lines is asymmetric: in every
single-level section (audio terminal, HID descriptor, HID item type, bias,
phy, country code, video terminal) a non-blank non-`#` line failing the
section's grammar aborts the build with that section's `expect` panic, while
in the nested sections (vendors, classes, HID usage pages, languages) a line
failing every depth's grammar while a depth-0 parent is open is ignored
without any error. -/
theorem c10_error_asymmetry (l : List Char) (hne : l ≠ []) (hnc : l.head? ≠ some '#')
    (hv : vendorLine l = none) (hd : deviceLine l = none) (hi : interfaceLine l = none)
    (hc : classLine l = none) (hs : subClassLine l = none) (hp : protocolLine l = none)
    (hat : atLine l = none) (hh : hidLine l = none) (hr : rLine l = none)
    (hb : biasLine l = none) (hph : phyLine l = none) (hhut : hutLine l = none)
    (hu : usageLine l = none) (hl2 : langLine l = none) (hdi : dialectLine l = none)
    (hcc : ccLine l = none) (hvt : vtLine l = none) :
    (∀ m curr, process (.atType m curr) l
        = .error (.expectFail "Invalid audio terminal line")) ∧
    (∀ m curr, process (.hidType m curr) l = .error (.expectFail "Invalid hid type line")) ∧
    (∀ m curr, process (.rType m curr) l
        = .error (.expectFail "Invalid hid item type line")) ∧
    (∀ m curr, process (.biasType m curr) l = .error (.expectFail "Invalid bias type line")) ∧
    (∀ m curr, process (.phyType m curr) l = .error (.expectFail "Invalid phy type line")) ∧
    (∀ m curr, process (.countryCode m curr) l
        = .error (.expectFail "Invalid country code line")) ∧
    (∀ m curr, process (.terminalType m curr) l
        = .error (.expectFail "Invalid terminal type line")) ∧
    (∀ m cv cid, process (.vendors m (some cv) cid) l = .ok (.vendors m (some cv) cid)) ∧
    (∀ m cc2 cid, process (.classes m (some cc2) cid) l = .ok (.classes m (some cc2) cid)) ∧
    (∀ m ch, process (.hutType m (some ch)) l = .ok (.hutType m (some ch))) ∧
    (∀ m cl, process (.lang m (some cl)) l = .ok (.lang m (some cl))) := by
  have hcond : ¬(l = [] ∨ l.head? = some '#') := by
    rintro (h1 | h2)
    · exact hne h1
    · exact hnc h2
  refine ⟨fun m curr => process_atType_unmatched m curr hcond hat,
    fun m curr => process_hidType_unmatched m curr hcond hh,
    fun m curr => process_rType_unmatched m curr hcond hr,
    fun m curr => process_biasType_unmatched m curr hcond hb,
    fun m curr => process_phyType_unmatched m curr hcond hph,
    fun m curr => process_countryCode_unmatched m curr hcond hcc,
    fun m curr => process_terminalType_unmatched m curr hcond hvt,
    fun m cv cid => process_vendors_skip m cv cid hcond hv hd hi,
    fun m cc2 cid => process_classes_skip m cc2 cid hcond hc hs hp,
    fun m ch => process_hutType_skip m ch hcond hhut hu,
    fun m cl => process_lang_skip m cl hcond hl2 hdi⟩

/-- Witness for C10 at the concrete unmatched line `junk`: abort in the
audio-terminal section, silent skip in the vendor section with a vendor open. -/
theorem c10_error_asymmetry_witness :
    process (.atType [] none) "junk".toList
      = .error (.expectFail "Invalid audio terminal line") ∧
    process (.vendors [] (some ⟨0xAAAA, "VendorX", []⟩) 0) "junk".toList
      = .ok (.vendors [] (some ⟨0xAAAA, "VendorX", []⟩) 0) :=
  ⟨(c10_error_asymmetry "junk".toList (by decide) (by decide) (by decide) (by decide)
      (by decide) (by decide) (by decide) (by decide) (by decide) (by decide) (by decide)
      (by decide) (by decide) (by decide) (by decide) (by decide) (by decide)
      (by decide) (by decide)).1 [] none,
   (c10_error_asymmetry "junk".toList (by decide) (by decide) (by decide) (by decide)
      (by decide) (by decide) (by decide) (by decide) (by decide) (by decide) (by decide)
      (by decide) (by decide) (by decide) (by decide) (by decide) (by decide)
      (by decide) (by decide)).2.2.2.2.2.2.2.1 [] ⟨0xAAAA, "VendorX", []⟩ 0⟩

/-- A recognized section header necessarily starts with `#`. -/
theorem headerState_hash {l : List Char} {ns : ParserState} (h : headerState l = some ns) :
    l.head? = some '#' := by
  unfold headerState at h
  by_cases hc : l.length < 7 ∨ l.head? ≠ some '#'
  · rw [if_pos hc] at h
    exact Option.noConfusion h
  · push_neg at hc
    exact hc.2

set_option maxHeartbeats 2000000 in
/-- Every state produced by a header transition has no open record. -/
theorem headerState_fresh {l : List Char} {ns : ParserState} (h : headerState l = some ns) :
    hasOpen ns = false := by
  unfold headerState at h
  repeat' split at h
  all_goals first
    | exact Option.noConfusion h
    | (cases Option.some.inj h; rfl)

/-- **C8.** On a line recognized as a section header, the loop first finalizes
the current section (flushing any still-open record into its table, which is
appended to the output) and switches to the new section with its open-record
slot empty; a non-header line triggers no finalization and no section change,
and a `#`-prefixed line that is not a header is a no-op for `process`. -/
theorem c8_header_transitions (st : ParserState) (out : List FinalTable) (l : List Char) :
    (∀ ns, headerState l = some ns →
      hasOpen ns = false ∧
      stepLine st out l = (finalize st).map (fun t => (ns, out ++ [t]))) ∧
    (headerState l = none →
      stepLine st out l = (process st l).map (fun s => (s, out)) ∧
      ∀ st2, process st l = .ok st2 → st2.kind = st.kind) ∧
    (l.head? = some '#' → process st l = .ok st) := by
  refine ⟨?_, fun hn => ⟨stepLine_of_no_header hn, fun _ h2 => process_kind h2⟩,
    fun hh => process_hash st hh⟩
  intro ns hns
  refine ⟨headerState_fresh hns, ?_⟩
  have hhash := headerState_hash hns
  unfold stepLine
  rw [hns]
  cases hfin : finalize st with
  | error e => simp [hfin, bind_err_eq, map_err_eq]
  | ok t => simp [hfin, bind_ok_eq, map_ok_eq, process_hash ns hhash]

/-- Witness for C8 at the real class-section header line, with a vendor still
open: the vendor table is flushed and the state switches to an empty class
section. -/
theorem c8_header_transitions_witness :
    hasOpen (ParserState.classes [] none 0) = false ∧
    stepLine (.vendors [] (some ⟨1, "V", []⟩) 0) [] "# C class  subclass  protocol".toList
      = (finalize (.vendors [] (some ⟨1, "V", []⟩) 0)).map
          (fun t => (ParserState.classes [] none 0, [] ++ [t])) :=
  (c8_header_transitions (.vendors [] (some ⟨1, "V", []⟩) 0) []
      "# C class  subclass  protocol".toList).1 (.classes [] none 0) (by decide)

/-- **C5.** For a vendor whose section lines list devices d1..dN in file
order, the line loop accumulates exactly d1..dN in that order in the open
vendor's device list, and the rendered (compiled) vendor exposes them in the
same order, every one carrying `vendor_id` equal to the vendor's id. -/
theorem c5_device_order (m : List (Nat × Vendor)) (out : List FinalTable)
    (vid : Nat) (vname : String) (cid : Nat)
    (pairs : List (List Char × Nat × List Char))
    (h : ∀ p ∈ pairs, deviceLine p.1 = some (p.2.2, p.2.1)) :
    stepLines (.vendors m (some ⟨vid, vname, []⟩) cid) out (pairs.map (·.1))
      = .ok (.vendors m
          (some ⟨vid, vname, pairs.map (fun p => ⟨p.2.1, ⟨p.2.2⟩, []⟩)⟩)
          (pairs.foldl (fun _ p => p.2.1) cid), out) ∧
    (CgVendor.toTokens ⟨vid, vname, pairs.map (fun p => ⟨p.2.1, ⟨p.2.2⟩, []⟩)⟩).devices
      = pairs.map (fun p => ⟨vid, p.2.1, ⟨p.2.2⟩, []⟩) ∧
    ∀ d ∈ (CgVendor.toTokens
        ⟨vid, vname, pairs.map (fun p => ⟨p.2.1, ⟨p.2.2⟩, []⟩)⟩).devices,
      d.vendor_id = vid := by
  refine ⟨?_, ?_, ?_⟩
  · have := stepLines_devices pairs h m out ⟨vid, vname, []⟩ cid
    simpa using this
  · simp [CgVendor.toTokens, List.map_map]
  · intro d hd
    simp only [CgVendor.toTokens, List.mem_map] at hd
    obtain ⟨p, hp, rfl⟩ := hd
    rfl

/-- Witness for C5 with two concrete device lines under vendor `AAAA`. -/
theorem c5_device_order_witness :
    stepLines (.vendors [] (some ⟨0xAAAA, "VendorX", []⟩) 0) []
        (List.map (·.1) [("\t0001  Dev1".toList, 1, "Dev1".toList),
          ("\t0002  Dev2".toList, 2, "Dev2".toList)])
      = .ok (.vendors []
          (some ⟨0xAAAA, "VendorX", [⟨1, "Dev1", []⟩, ⟨2, "Dev2", []⟩]⟩) 2, []) ∧
    (CgVendor.toTokens ⟨0xAAAA, "VendorX", [⟨1, "Dev1", []⟩, ⟨2, "Dev2", []⟩]⟩).devices
      = [⟨0xAAAA, 1, "Dev1", []⟩, ⟨0xAAAA, 2, "Dev2", []⟩] :=
  ⟨(c5_device_order [] [] 0xAAAA "VendorX" 0
      [("\t0001  Dev1".toList, 1, "Dev1".toList), ("\t0002  Dev2".toList, 2, "Dev2".toList)]
      (by decide)).1,
   (c5_device_order [] [] 0xAAAA "VendorX" 0
      [("\t0001  Dev1".toList, 1, "Dev1".toList), ("\t0002  Dev2".toList, 2, "Dev2".toList)]
      (by decide)).2.1⟩

/-- **C6.** Two depth-0 vendor lines with the same id `AAAA` in the same
section make the compile fail with the duplicate-key error raised by
`phf_codegen::Map::build`; the duplicate is never silently resolved. -/
theorem c6_duplicate_id :
    compile ["AAAA  VendorX".toList, "AAAA  VendorY".toList]
      = .error (.duplicateKey 0xAAAA) := by decide

/-! ## Back-reference safety (claim C9) -/

/-- Rendering a vendor stamps its own id into every emitted device. -/
theorem toTokens_vendorOK (cv : CgVendor) : vendorOK cv.toTokens := by
  intro d hd
  simp only [CgVendor.toTokens, List.mem_map] at hd
  obtain ⟨x, hx, rfl⟩ := hd
  rfl

/-- Rendering a class stamps its own id into every emitted subclass. -/
theorem toTokens_classOK (cc : CgClass) : classOK cc.toTokens := by
  intro s hs
  simp only [CgClass.toTokens, List.mem_map] at hs
  obtain ⟨x, hx, rfl⟩ := hs
  rfl

/-- Appending a rendered vendor entry (keyed by its own id, as every
`m.entry(cv.id, ...)` call does) preserves the vendor-map invariant. -/
theorem vtableInv_append {m : List (Nat × Vendor)} (hm : vtableInv m) (cv : CgVendor) :
    vtableInv (m ++ [(cv.id, cv.toTokens)]) := by
  intro p hp
  rcases List.mem_append.mp hp with h | h
  · exact hm p h
  · have hp2 : p = (cv.id, cv.toTokens) := by simpa using h
    subst hp2
    exact ⟨rfl, toTokens_vendorOK cv⟩

/-- Appending a rendered class entry preserves the class-map invariant. -/
theorem ctableInv_append {m : List (Nat × Class)} (hm : ctableInv m) (cc : CgClass) :
    ctableInv (m ++ [(cc.id, cc.toTokens)]) := by
  intro p hp
  rcases List.mem_append.mp hp with h | h
  · exact hm p h
  · have hp2 : p = (cc.id, cc.toTokens) := by simpa using h
    subst hp2
    exact ⟨rfl, toTokens_classOK cc⟩

/-- One `process` step preserves the state invariant. -/
theorem process_stInv {st st' : ParserState} {l : List Char}
    (h : process st l = .ok st') (hinv : stInv st) : stInv st' := by
  cases st with
  | vendors m curr cid =>
    simp only [process] at h
    repeat' split at h
    all_goals first
      | exact Except.noConfusion h
      | (cases Except.ok.inj h; exact hinv)
      | (cases Except.ok.inj h; exact vtableInv_append hinv _)
  | classes m curr cid =>
    simp only [process] at h
    repeat' split at h
    all_goals first
      | exact Except.noConfusion h
      | (cases Except.ok.inj h; exact hinv)
      | (cases Except.ok.inj h; exact ctableInv_append hinv _)
  | atType m curr =>
    simp only [process] at h
    repeat' split at h
    all_goals first
      | exact Except.noConfusion h
      | (cases Except.ok.inj h; trivial)
  | hidType m curr =>
    simp only [process] at h
    repeat' split at h
    all_goals first
      | exact Except.noConfusion h
      | (cases Except.ok.inj h; trivial)
  | rType m curr =>
    simp only [process] at h
    repeat' split at h
    all_goals first
      | exact Except.noConfusion h
      | (cases Except.ok.inj h; trivial)
  | biasType m curr =>
    simp only [process] at h
    repeat' split at h
    all_goals first
      | exact Except.noConfusion h
      | (cases Except.ok.inj h; trivial)
  | phyType m curr =>
    simp only [process] at h
    repeat' split at h
    all_goals first
      | exact Except.noConfusion h
      | (cases Except.ok.inj h; trivial)
  | hutType m curr =>
    simp only [process] at h
    repeat' split at h
    all_goals first
      | exact Except.noConfusion h
      | (cases Except.ok.inj h; trivial)
  | lang m curr =>
    simp only [process] at h
    repeat' split at h
    all_goals first
      | exact Except.noConfusion h
      | (cases Except.ok.inj h; trivial)
  | countryCode m curr =>
    simp only [process] at h
    repeat' split at h
    all_goals first
      | exact Except.noConfusion h
      | (cases Except.ok.inj h; trivial)
  | terminalType m curr =>
    simp only [process] at h
    repeat' split at h
    all_goals first
      | exact Except.noConfusion h
      | (cases Except.ok.inj h; trivial)

/-- `emit` preserves the state invariant (it only appends an entry keyed by
the open record's own id). -/
theorem emit_stInv {st : ParserState} (hinv : stInv st) : stInv st.emit := by
  cases st with
  | vendors m curr cid =>
    cases curr with
    | none => exact hinv
    | some v => exact vtableInv_append hinv v
  | classes m curr cid =>
    cases curr with
    | none => exact hinv
    | some c => exact ctableInv_append hinv c
  | atType m curr => cases curr <;> trivial
  | hidType m curr => cases curr <;> trivial
  | rType m curr => cases curr <;> trivial
  | biasType m curr => cases curr <;> trivial
  | phyType m curr => cases curr <;> trivial
  | hutType m curr => cases curr <;> trivial
  | lang m curr => cases curr <;> trivial
  | countryCode m curr => cases curr <;> trivial
  | terminalType m curr => cases curr <;> trivial

/-- `phf_codegen::Map::build` returns the entries unchanged when it succeeds. -/
theorem buildMap_ok {V : Type} {m t : List (Nat × V)} (h : buildMap m = .ok t) : t = m := by
  unfold buildMap at h
  split at h
  · exact Except.noConfusion h
  · exact (Except.ok.inj h).symm

/-- The vendors-table branch of `finalize` transports the map invariant. -/
theorem ftInv_of_buildMap_vendors {m : List (Nat × Vendor)} {ft : FinalTable}
    (h : (buildMap m).map FinalTable.vendors = .ok ft) (hm : vtableInv m) : ftInv ft := by
  cases hbm : buildMap m with
  | error e =>
    rw [hbm] at h
    exact Except.noConfusion h
  | ok t =>
    rw [hbm, map_ok_eq] at h
    cases Except.ok.inj h
    cases buildMap_ok hbm
    exact hm

/-- The classes-table branch of `finalize` transports the map invariant. -/
theorem ftInv_of_buildMap_classes {m : List (Nat × Class)} {ft : FinalTable}
    (h : (buildMap m).map FinalTable.classes = .ok ft) (hm : ctableInv m) : ftInv ft := by
  cases hbm : buildMap m with
  | error e =>
    rw [hbm] at h
    exact Except.noConfusion h
  | ok t =>
    rw [hbm, map_ok_eq] at h
    cases Except.ok.inj h
    cases buildMap_ok hbm
    exact hm

/-- The remaining `finalize` branches produce tables whose invariant is
trivial. -/
theorem ftInv_of_buildMap_trivial {V : Type} {m : List (Nat × V)} {ft : FinalTable}
    {F : List (Nat × V) → FinalTable} (h : (buildMap m).map F = .ok ft)
    (hF : ∀ t, ftInv (F t)) : ftInv ft := by
  cases hbm : buildMap m with
  | error e =>
    rw [hbm] at h
    exact Except.noConfusion h
  | ok t =>
    rw [hbm, map_ok_eq] at h
    cases Except.ok.inj h
    exact hF t

/-- A successful `finalize` emits a table satisfying the table invariant. -/
theorem finalize_ftInv {st : ParserState} {ft : FinalTable}
    (h : finalize st = .ok ft) (hinv : stInv st) : ftInv ft := by
  have hemit := emit_stInv hinv
  unfold finalize at h
  cases hse : st.emit with
  | vendors m curr cid =>
    rw [hse] at h hemit
    exact ftInv_of_buildMap_vendors h hemit
  | classes m curr cid =>
    rw [hse] at h hemit
    exact ftInv_of_buildMap_classes h hemit
  | atType m curr =>
    rw [hse] at h
    exact ftInv_of_buildMap_trivial h (fun t => trivial)
  | hidType m curr =>
    rw [hse] at h
    exact ftInv_of_buildMap_trivial h (fun t => trivial)
  | rType m curr =>
    rw [hse] at h
    exact ftInv_of_buildMap_trivial h (fun t => trivial)
  | biasType m curr =>
    rw [hse] at h
    exact ftInv_of_buildMap_trivial h (fun t => trivial)
  | phyType m curr =>
    rw [hse] at h
    exact ftInv_of_buildMap_trivial h (fun t => trivial)
  | hutType m curr =>
    rw [hse] at h
    exact ftInv_of_buildMap_trivial h (fun t => trivial)
  | lang m curr =>
    rw [hse] at h
    exact ftInv_of_buildMap_trivial h (fun t => trivial)
  | countryCode m curr =>
    rw [hse] at h
    exact ftInv_of_buildMap_trivial h (fun t => trivial)
  | terminalType m curr =>
    rw [hse] at h
    exact ftInv_of_buildMap_trivial h (fun t => trivial)

set_option maxHeartbeats 2000000 in
/-- Every state produced by a header transition satisfies the state invariant
(its map is empty). -/
theorem headerState_stInv {l : List Char} {ns : ParserState}
    (h : headerState l = some ns) : stInv ns := by
  unfold headerState at h
  repeat' split at h
  all_goals first
    | exact Option.noConfusion h
    | (cases Option.some.inj h; first
        | trivial
        | (intro p hp; cases hp))

/-- `find?` succeeds whenever some member satisfies the predicate. -/
theorem find_isSome_of_mem {α : Type} (p : α → Bool) {l : List α} {x : α}
    (hx : x ∈ l) (hp : p x = true) : (l.find? p).isSome = true := by
  induction l with
  | nil => cases hx
  | cons a t ih =>
    rcases List.mem_cons.mp hx with rfl | hmem
    · rw [List.find?_cons_of_pos _ hp]
      rfl
    · cases hpa : p a with
      | true =>
        rw [List.find?_cons_of_pos _ hpa]
        rfl
      | false =>
        rw [List.find?_cons_of_neg _ (by rw [hpa]; exact Bool.false_ne_true)]
        exact ih hmem

/-- The table invariant implies that all back-reference lookups succeed. -/
theorem backlinks_of_ftInv {ft : FinalTable} (h : ftInv ft) : tableBacklinksOK ft := by
  cases ft with
  | vendors t =>
    intro p hp d hd
    obtain ⟨hkey, hok⟩ := h p hp
    have hvid : d.vendor_id = p.2.id := hok d hd
    have hfind : (t.find? (fun q => q.1 == d.vendor_id)).isSome = true := by
      refine find_isSome_of_mem _ hp ?_
      rw [hvid, ← hkey]
      exact beq_self_eq_true p.1
    have hform : (deviceVendor t d).isSome
        = (t.find? (fun q => q.1 == d.vendor_id)).isSome := by
      unfold deviceVendor vendorFromId
      cases t.find? (fun q => q.1 == d.vendor_id) <;> rfl
    rw [hform]
    exact hfind
  | classes t =>
    intro p hp s hs
    obtain ⟨hkey, hok⟩ := h p hp
    have hcid : s.class_id = p.2.id := hok s hs
    have hfind : (t.find? (fun q => q.1 == s.class_id)).isSome = true := by
      refine find_isSome_of_mem _ hp ?_
      rw [hcid, ← hkey]
      exact beq_self_eq_true p.1
    have hform : (subClassClass t s).isSome
        = (t.find? (fun q => q.1 == s.class_id)).isSome := by
      unfold subClassClass classFromId
      cases t.find? (fun q => q.1 == s.class_id) <;> rfl
    rw [hform]
    exact hfind
  | audioTerminal t => trivial
  | hidDescriptor t => trivial
  | hidItem t => trivial
  | bias t => trivial
  | phy t => trivial
  | hut t => trivial
  | language t => trivial
  | countryCode t => trivial
  | videoTerminal t => trivial

/-- One `stepLine` iteration preserves the state invariant and the invariant of
every table already written out. -/
theorem stepLine_inv {st st' : ParserState} {out out' : List FinalTable} {l : List Char}
    (h : stepLine st out l = .ok (st', out'))
    (hst : stInv st) (hout : ∀ ft ∈ out, ftInv ft) :
    stInv st' ∧ ∀ ft ∈ out', ftInv ft := by
  unfold stepLine at h
  cases hhs : headerState l with
  | none =>
    rw [hhs] at h
    have h2 : (do
        let st2 ← process st l
        pure (st2, out) : Except BuildErr (ParserState × List FinalTable))
        = .ok (st', out') := h
    cases hp : process st l with
    | error e =>
      rw [hp] at h2
      exact Except.noConfusion (show (Except.error e : Except BuildErr
        (ParserState × List FinalTable)) = .ok (st', out') from h2)
    | ok st2 =>
      rw [hp] at h2
      have h3 : (Except.ok (st2, out) : Except BuildErr
          (ParserState × List FinalTable)) = .ok (st', out') := h2
      cases Except.ok.inj h3
      exact ⟨process_stInv hp hst, hout⟩
  | some ns =>
    rw [hhs] at h
    cases hf : finalize st with
    | error e =>
      rw [hf] at h
      exact Except.noConfusion (show (Except.error e : Except BuildErr
        (ParserState × List FinalTable)) = .ok (st', out') from h)
    | ok t =>
      rw [hf] at h
      have h2 : (do
          let st2 ← process ns l
          pure (st2, out ++ [t]) : Except BuildErr (ParserState × List FinalTable))
          = .ok (st', out') := h
      cases hp : process ns l with
      | error e =>
        rw [hp] at h2
        exact Except.noConfusion (show (Except.error e : Except BuildErr
          (ParserState × List FinalTable)) = .ok (st', out') from h2)
      | ok st2 =>
        rw [hp] at h2
        have h3 : (Except.ok (st2, out ++ [t]) : Except BuildErr
            (ParserState × List FinalTable)) = .ok (st', out') := h2
        cases Except.ok.inj h3
        refine ⟨process_stInv hp (headerState_stInv hhs), ?_⟩
        intro ft hft
        rcases List.mem_append.mp hft with hmem | hmem
        · exact hout ft hmem
        · have hft2 : ft = t := by simpa using hmem
          subst hft2
          exact finalize_ftInv hf hst

/-- The line loop preserves both invariants. -/
theorem stepLines_inv :
    ∀ (lines : List (List Char)) (st : ParserState) (out : List FinalTable)
      (st' : ParserState) (out' : List FinalTable),
      stepLines st out lines = .ok (st', out') → stInv st → (∀ ft ∈ out, ftInv ft) →
      stInv st' ∧ ∀ ft ∈ out', ftInv ft := by
  intro lines
  induction lines with
  | nil =>
    intro st out st' out' h hst hout
    have h2 : (Except.ok (st, out) : Except BuildErr
        (ParserState × List FinalTable)) = .ok (st', out') := h
    cases Except.ok.inj h2
    exact ⟨hst, hout⟩
  | cons l ls ih =>
    intro st out st' out' h hst hout
    cases hsl : stepLine st out l with
    | error e =>
      rw [stepLines_cons_err hsl] at h
      exact Except.noConfusion h
    | ok p =>
      obtain ⟨st1, out1⟩ := p
      rw [stepLines_cons_ok hsl] at h
      obtain ⟨h1, h2⟩ := stepLine_inv hsl hst hout
      exact ih st1 out1 st' out' h h1 h2

/-- **C9.** Whenever the compile succeeds, every table it produced has safe
back-references: for each vendor entry, every contained device's
`Device::vendor()` lookup finds a vendor (the builder stamped the device with
the id of the vendor it was emitted inside, which is also that vendor's key),
and likewise every subclass's `SubClass::class()` lookup — the `unwrap` calls
in lib.rs cannot panic on compiled data. -/
theorem c9_backlink_safety (lines : List (List Char)) (out : List FinalTable)
    (h : compile lines = .ok out) : ∀ ft ∈ out, tableBacklinksOK ft := by
  unfold compile at h
  cases hsl : stepLines (.vendors [] none 0) [] lines with
  | error e =>
    rw [hsl] at h
    exact Except.noConfusion (show (Except.error e : Except BuildErr
      (List FinalTable)) = .ok out from h)
  | ok p =>
    obtain ⟨st, out1⟩ := p
    rw [hsl] at h
    have h2 : (do
        let t ← finalize st
        pure (out1 ++ [t]) : Except BuildErr (List FinalTable)) = .ok out := h
    cases hf : finalize st with
    | error e =>
      rw [hf] at h2
      exact Except.noConfusion (show (Except.error e : Except BuildErr
        (List FinalTable)) = .ok out from h2)
    | ok t =>
      rw [hf] at h2
      have h3 : (Except.ok (out1 ++ [t]) : Except BuildErr (List FinalTable))
          = .ok out := h2
      cases Except.ok.inj h3
      obtain ⟨hstInv, houtInv⟩ := stepLines_inv lines (.vendors [] none 0) [] st out1 hsl
        (by intro p hp; cases hp) (by intro ft hft; cases hft)
      intro ft hft
      rcases List.mem_append.mp hft with hmem | hmem
      · exact backlinks_of_ftInv (houtInv ft hmem)
      · have hft2 : ft = t := by simpa using hmem
        subst hft2
        exact backlinks_of_ftInv (finalize_ftInv hf hstInv)

/-- Witness for C9 on the compile of the two-line Linux Foundation input. -/
theorem c9_backlink_safety_witness :
    tableBacklinksOK (FinalTable.vendors [(0x1D6B, ⟨0x1D6B, "Linux Foundation",
        [⟨0x1D6B, 3, "3.0 root hub", []⟩]⟩)]) :=
  c9_backlink_safety ["1D6B  Linux Foundation".toList, "\t0003  3.0 root hub".toList]
    [FinalTable.vendors [(0x1D6B, ⟨0x1D6B, "Linux Foundation",
        [⟨0x1D6B, 3, "3.0 root hub", []⟩]⟩)]] (by decide)
    (FinalTable.vendors [(0x1D6B, ⟨0x1D6B, "Linux Foundation",
        [⟨0x1D6B, 3, "3.0 root hub", []⟩]⟩)]) (by decide)

end UsbIds
